import Mathlib

/-!
Verification of the confidence-based quality control and review routing
engine of pipeshub-ai.

Scores are modelled as exact rationals (`ℚ`).  The frontend helper
`getConfidenceMetadata` (ConfidenceIndicator component) is embedded
directly from the TypeScript source.  The backend engine
(`classify`, `ConfidenceCache`, `ReviewQueue`, `TrendTracker`) is not
among the provided source files — only its documentation, its HTTP
callers and its TypeScript interface declarations are — so those
components are modelled from the specification text.
-/

namespace PipesHub

/-- Result record of `getConfidenceMetadata`.  The React icon element is
modelled by the icon component's name. -/
structure ConfidenceMetadata where
  score : ℚ
  band : String
  color : String
  icon : String
  label : String
  description : String
deriving Repr, DecidableEq

/-- Embedding of `getConfidenceMetadata` from the ConfidenceIndicator
component: three branches on the score (`>= 0.85`, `>= 0.6`, otherwise),
the `band` argument echoed into the result, the description of the two
lower branches depending on `isSafetyCritical`.  The source performs no
input validation and never throws. -/
def getConfidenceMetadata (score : ℚ) (band : String)
    (isSafetyCritical : Bool := false) : ConfidenceMetadata :=
  if (0.85 : ℚ) ≤ score then
    { score := score, band := band, color := "success", icon := "CheckCircle",
      label := "High Confidence",
      description := "Extraction is highly reliable" }
  else if (0.6 : ℚ) ≤ score then
    { score := score, band := band, color := "warning", icon := "Warning",
      label := "Medium Confidence",
      description := if isSafetyCritical then
          "Safety critical document requires review"
        else "May require review" }
  else
    { score := score, band := band, color := "error", icon := "Error",
      label := "Low Confidence",
      description := if isSafetyCritical then
          "URGENT: Safety critical document needs immediate review"
        else "Requires human review" }

/-- Embedding of the ConfidenceIndicator render condition for the
urgent-safety banner: `isSafetyCritical && confidenceScore < 0.8`. -/
def urgentSafetyBannerShown (isSafetyCritical : Bool) (score : ℚ) : Bool :=
  isSafetyCritical && decide (score < (0.8 : ℚ))

/-- Confidence bands HIGH / MEDIUM / LOW. -/
inductive Band
  | HIGH
  | MEDIUM
  | LOW
deriving Repr, DecidableEq

/-- Routing paths of the classifier. -/
inductive RoutingPath
  | URGENT_REVIEW
  | AUTO_APPROVE
  | STANDARD_REVIEW
  | ENHANCED_REVIEW
  | MANUAL_VALIDATION
deriving Repr, DecidableEq

/-- Error raised by `classify` on an out-of-range score. -/
inductive ClassifyError
  | InvalidScoreError
deriving Repr, DecidableEq

/-- Modelled from the spec: the ScoreClassifier band thresholds
(the backend ScoreClassifier is not among the provided sources):
`score >= 0.85` gives HIGH, `0.60 <= score < 0.85` gives MEDIUM,
`score < 0.60` gives LOW. -/
def bandOf (score : ℚ) : Band :=
  if (0.85 : ℚ) ≤ score then .HIGH
  else if (0.6 : ℚ) ≤ score then .MEDIUM
  else .LOW

/-- Modelled from the spec: the TTL policy table, band to seconds:
HIGH = 86400, MEDIUM = 43200, LOW = 3600. -/
def ttlForBand : Band → ℕ
  | .HIGH => 86400
  | .MEDIUM => 43200
  | .LOW => 3600

/-- Modelled from the spec: routing path selection of the ScoreClassifier,
five mutually exclusive rules evaluated in order, first match wins:
safety-critical override (`isSafetyCritical` and `score < 0.80`), then
auto-approve (`score >= 0.85`), standard review (`score >= 0.60`),
enhanced review (`score >= 0.30`), and manual validation otherwise. -/
def routingPathOf (score : ℚ) (isSafetyCritical : Bool) : RoutingPath :=
  if isSafetyCritical = true ∧ score < (0.8 : ℚ) then .URGENT_REVIEW
  else if (0.85 : ℚ) ≤ score then .AUTO_APPROVE
  else if (0.6 : ℚ) ≤ score then .STANDARD_REVIEW
  else if (0.3 : ℚ) ≤ score then .ENHANCED_REVIEW
  else .MANUAL_VALIDATION

/-- Result of a successful classification. -/
structure Classification where
  band : Band
  cacheTTLSeconds : ℕ
  routingPath : RoutingPath
deriving Repr, DecidableEq

/-- Modelled from the spec: `classify(score, isSafetyCritical)` of the
ScoreClassifier.  It fails with `InvalidScoreError` when the score is
outside [0.0, 1.0]; otherwise it returns the band, the routing path, and
the band-derived TTL, except that the MANUAL_VALIDATION path overrides
the TTL to 0 (no caching, for this path only). -/
def classify (score : ℚ) (isSafetyCritical : Bool) :
    Except ClassifyError Classification :=
  if score < 0 ∨ 1 < score then .error .InvalidScoreError
  else
    let b := bandOf score
    let p := routingPathOf score isSafetyCritical
    .ok ⟨b, if p = .MANUAL_VALIDATION then 0 else ttlForBand b, p⟩

/-- Arithmetic mean of a list of scores; 0 for the empty list (rational
division by zero is zero). -/
def listMean (xs : List ℚ) : ℚ := xs.sum / xs.length

/-- Modelled from the spec: the TrendTracker ring buffer of the last
`capacity` samples (default 100), oldest first (the TrendTracker backend
is not among the provided sources). -/
structure TrendTracker where
  capacity : ℕ
  samples : List ℚ
deriving Repr, DecidableEq

/-- Modelled from the spec: `record` appends the new sample and evicts
the oldest samples when the buffer exceeds its capacity. -/
def TrendTracker.record (t : TrendTracker) (s : ℚ) : TrendTracker :=
  let xs := t.samples ++ [s]
  { t with samples :=
      if t.capacity < xs.length then xs.drop (xs.length - t.capacity)
      else xs }

/-- Report returned by `currentTrend`. -/
structure TrendReport where
  trend : String
  recentAverage : ℚ
  sampleSize : ℕ
deriving Repr, DecidableEq

/-- Modelled from the spec: `currentTrend` splits the buffer into an
older and a newer half by insertion order; with fewer than 10 samples
the trend is "insufficient_data", otherwise the newer-minus-older mean
difference is classified against the noise band 0.03; `recentAverage`
is the mean of the newer half only. -/
def TrendTracker.currentTrend (t : TrendTracker) : TrendReport :=
  let n := t.samples.length
  let older := t.samples.take (n / 2)
  let newer := t.samples.drop (n / 2)
  if n < 10 then
    { trend := "insufficient_data", recentAverage := listMean newer,
      sampleSize := n }
  else if (0.03 : ℚ) < listMean newer - listMean older then
    { trend := "improving", recentAverage := listMean newer,
      sampleSize := n }
  else if listMean newer - listMean older < -(0.03 : ℚ) then
    { trend := "declining", recentAverage := listMean newer,
      sampleSize := n }
  else
    { trend := "stable", recentAverage := listMean newer, sampleSize := n }

/-- Review priorities URGENT > HIGH > MEDIUM. -/
inductive Priority
  | URGENT
  | HIGH
  | MEDIUM
deriving Repr, DecidableEq

/-- A review-queue item: identity `documentId`, mutable priority, reason
and score, the first-seen `createdAtTimestamp`, and the resolution
state. -/
structure ReviewItem where
  documentId : String
  confidenceScore : ℚ
  confidenceBand : Band
  priority : Priority
  reason : String
  createdAtTimestamp : ℕ
  resolved : Bool
  resolution : Option String
deriving Repr, DecidableEq

/-- Whether the queue holds an unresolved item for `id`. -/
def hasUnresolved (q : List ReviewItem) (id : String) : Bool :=
  q.any fun i => i.documentId == id && !i.resolved

/-- Modelled from the spec: `enqueue` of the ReviewQueue (the backend
ReviewQueue is not among the provided sources).  When an unresolved item
for the documentId exists it replaces that item's priority, reason and
score in place, preserving the original createdAtTimestamp; otherwise it
appends a fresh unresolved item stamped `now`. -/
def enqueue (q : List ReviewItem) (id : String) (score : ℚ) (band : Band)
    (prio : Priority) (why : String) (now : ℕ) : List ReviewItem :=
  if hasUnresolved q id then
    q.map fun i =>
      if i.documentId == id && !i.resolved then
        { i with confidenceScore := score, confidenceBand := band,
                 priority := prio, reason := why }
      else i
  else
    q ++ [⟨id, score, band, prio, why, now, false, none⟩]

/-- Modelled from the spec: `resolve(documentId, resolution)` of the
ReviewQueue.  It marks the first unresolved item for the documentId
resolved with the given resolution string and returns true; when no
unresolved item exists it returns false and leaves the queue
unchanged. -/
def resolveReview : List ReviewItem → String → String → Bool × List ReviewItem
  | [], _, _ => (false, [])
  | i :: rest, id, r =>
    if i.documentId == id && !i.resolved then
      (true, { i with resolved := true, resolution := some r } :: rest)
    else
      let p := resolveReview rest id r
      (p.1, i :: p.2)

/-- Queue states reachable from the empty queue by `enqueue` and
`resolve`. -/
inductive ReachableQueue : List ReviewItem → Prop
  | empty : ReachableQueue []
  | enqueue (q : List ReviewItem) (id : String) (score : ℚ) (band : Band)
      (prio : Priority) (why : String) (now : ℕ) :
      ReachableQueue q → ReachableQueue (enqueue q id score band prio why now)
  | resolve (q : List ReviewItem) (id r : String) :
      ReachableQueue q → ReachableQueue (resolveReview q id r).2

/-- Invariant of the ReviewQueue: at most one unresolved item per
documentId. -/
def atMostOneUnresolved (q : List ReviewItem) : Prop :=
  ∀ id : String,
    (q.filter fun i => i.documentId == id && !i.resolved).length ≤ 1

/-- A cache entry: a scored document with its insertion time, TTL and
precomputed expiry time. -/
structure CacheEntry where
  documentId : String
  confidenceScore : ℚ
  insertedAt : ℕ
  ttlSeconds : ℕ
  expiresAt : ℕ
deriving Repr, DecidableEq

/-- Whether the entry is expired at time `now` (`now >= expiresAt`). -/
def expired (now : ℕ) (e : CacheEntry) : Bool := e.expiresAt ≤ now

/-- Modelled from the spec: `put` of the ConfidenceCache (the backend
cache is not among the provided sources).  It overwrites any existing
entry for the same documentId (last-classification-wins) and stores
`expiresAt = insertedAt + ttlSeconds`; `ttlSeconds = 0` is accepted into
the bookkeeping. -/
def cachePut (c : List CacheEntry) (id : String) (score : ℚ)
    (now ttl : ℕ) : List CacheEntry :=
  (c.filter fun e => !(e.documentId == id)) ++ [⟨id, score, now, ttl, now + ttl⟩]

/-- Modelled from the spec: `get` checks expiry lazily: an entry with
`now >= expiresAt` is treated as absent and removed, a live one is
returned. -/
def cacheGet (c : List CacheEntry) (id : String) (now : ℕ) :
    Option ℚ × List CacheEntry :=
  match c.find? (fun e => e.documentId == id) with
  | none => (none, c)
  | some e =>
    if expired now e then (none, c.filter fun x => !(x.documentId == id))
    else (some e.confidenceScore, c)

/-- Modelled from the spec: the periodic sweep removes every expired
entry. -/
def cacheSweep (c : List CacheEntry) (now : ℕ) : List CacheEntry :=
  c.filter fun e => !expired now e

/-- Cache statistics record. -/
structure CacheStats where
  totalItems : ℕ
  activeItems : ℕ
  expiredItems : ℕ
deriving Repr, DecidableEq

/-- Modelled from the spec: `stats` counts the stored entries and
partitions them into live and expired at the observation time. -/
def cacheStats (c : List CacheEntry) (now : ℕ) : CacheStats :=
  ⟨c.length, (c.filter fun e => !expired now e).length,
    (c.filter fun e => expired now e).length⟩

/-- C1: for every score in [0, 1], `getConfidenceMetadata` classifies into
the HIGH tier iff the score is at least 0.85, the MEDIUM tier iff it is in
[0.60, 0.85), and the LOW tier iff it is below 0.60; boundary scores land
in the higher tier. -/
theorem getConfidenceMetadata_band_thresholds (s : ℚ) (band : String)
    (sc : Bool) (h0 : 0 ≤ s) (h1 : s ≤ 1) :
    ((getConfidenceMetadata s band sc).label = "High Confidence" ↔
      (0.85 : ℚ) ≤ s) ∧
    ((getConfidenceMetadata s band sc).label = "Medium Confidence" ↔
      ((0.6 : ℚ) ≤ s ∧ s < (0.85 : ℚ))) ∧
    ((getConfidenceMetadata s band sc).label = "Low Confidence" ↔
      s < (0.6 : ℚ)) := by
  unfold getConfidenceMetadata
  by_cases hH : (0.85 : ℚ) ≤ s
  · have hM : (0.6 : ℚ) ≤ s := le_trans (by norm_num) hH
    simp [hH, hM, not_lt.mpr hH, not_lt.mpr hM]
  · by_cases hM : (0.6 : ℚ) ≤ s
    · simp [hH, hM, not_le.mp hH, not_lt.mpr hM]
    · simp [hH, hM, not_le.mp hM]

/-- C1 witness: the boundary score 0.85 is in range and lands in the HIGH
tier. -/
theorem getConfidenceMetadata_band_thresholds_witness :
    (0 : ℚ) ≤ (0.85 : ℚ) ∧ (0.85 : ℚ) ≤ 1 ∧
    ((getConfidenceMetadata (0.85 : ℚ) "HIGH" false).label =
      "High Confidence" ↔ (0.85 : ℚ) ≤ (0.85 : ℚ)) := by
  refine ⟨by norm_num, by norm_num, ?_⟩
  exact (getConfidenceMetadata_band_thresholds (0.85 : ℚ) "HIGH" false
    (by norm_num) (by norm_num)).1

/-- C9: `getConfidenceMetadata` is total: every score, in range or not,
yields exactly one of the three tiers and no error; the out-of-range
scores 1.5 and -0.2 are classified as High and Low Confidence. -/
theorem getConfidenceMetadata_total (s : ℚ) (band : String) (sc : Bool) :
    ((getConfidenceMetadata s band sc).label = "High Confidence" ∨
     (getConfidenceMetadata s band sc).label = "Medium Confidence" ∨
     (getConfidenceMetadata s band sc).label = "Low Confidence") ∧
    (getConfidenceMetadata (1.5 : ℚ) band sc).label = "High Confidence" ∧
    (getConfidenceMetadata (-0.2 : ℚ) band sc).label = "Low Confidence" := by
  refine ⟨?_, ?_, ?_⟩
  · unfold getConfidenceMetadata
    by_cases hH : (0.85 : ℚ) ≤ s
    · simp [hH]
    · by_cases hM : (0.6 : ℚ) ≤ s
      · simp [hH, hM]
      · simp [hH, hM]
  · simp [getConfidenceMetadata, show (0.85 : ℚ) ≤ 1.5 by norm_num]
  · have h1 : ¬ (0.85 : ℚ) ≤ (-0.2 : ℚ) := by norm_num
    have h2 : ¬ (0.6 : ℚ) ≤ (-0.2 : ℚ) := by norm_num
    simp [getConfidenceMetadata, h1, h2]

/-- C10: the `band` argument does not influence the classification: two
calls with the same score and safety flag but different bands return the
same color, icon, label and description, and the band is only echoed into
the result. -/
theorem getConfidenceMetadata_band_noninterference (s : ℚ)
    (b1 b2 : String) (sc : Bool) :
    (getConfidenceMetadata s b1 sc).color =
      (getConfidenceMetadata s b2 sc).color ∧
    (getConfidenceMetadata s b1 sc).icon =
      (getConfidenceMetadata s b2 sc).icon ∧
    (getConfidenceMetadata s b1 sc).label =
      (getConfidenceMetadata s b2 sc).label ∧
    (getConfidenceMetadata s b1 sc).description =
      (getConfidenceMetadata s b2 sc).description ∧
    (getConfidenceMetadata s b1 sc).band = b1 := by
  unfold getConfidenceMetadata
  by_cases hH : (0.85 : ℚ) ≤ s
  · simp [hH]
  · by_cases hM : (0.6 : ℚ) ≤ s
    · simp [hH, hM]
    · simp [hH, hM]

/-- C2: for every in-range score, a safety-critical document with score
below 0.80 is routed URGENT_REVIEW (the override is the first routing
rule), and one with score at least 0.80 is not; the ConfidenceIndicator
urgent-safety banner shows under exactly the same condition. -/
theorem classify_safety_critical_override (s : ℚ) (h0 : 0 ≤ s)
    (h1 : s ≤ 1) :
    (s < (0.8 : ℚ) →
      (classify s true).map Classification.routingPath =
        Except.ok RoutingPath.URGENT_REVIEW ∧
      urgentSafetyBannerShown true s = true) ∧
    ((0.8 : ℚ) ≤ s →
      (classify s true).map Classification.routingPath ≠
        Except.ok RoutingPath.URGENT_REVIEW ∧
      urgentSafetyBannerShown true s = false) := by
  have hrange : ¬ (s < 0 ∨ 1 < s) := by
    push_neg
    exact ⟨h0, h1⟩
  constructor
  · intro hs
    constructor
    · simp [classify, hrange, routingPathOf, hs, Except.map]
    · simp [urgentSafetyBannerShown, hs]
  · intro hs
    have hns : ¬ s < (0.8 : ℚ) := not_lt.mpr hs
    constructor
    · by_cases hA : (0.85 : ℚ) ≤ s
      · simp [classify, hrange, routingPathOf, hns, hA, Except.map]
      · have hM : (0.6 : ℚ) ≤ s := le_trans (by norm_num) hs
        simp [classify, hrange, routingPathOf, hns, hA, hM, Except.map]
    · simp [urgentSafetyBannerShown, hns]

/-- C2 witness: the safety-critical score 0.5 is in range and is routed
URGENT_REVIEW. -/
theorem classify_safety_critical_override_witness :
    (0 : ℚ) ≤ (0.5 : ℚ) ∧ (0.5 : ℚ) ≤ 1 ∧
    (classify (0.5 : ℚ) true).map Classification.routingPath =
      Except.ok RoutingPath.URGENT_REVIEW := by
  refine ⟨by norm_num, by norm_num, ?_⟩
  exact ((classify_safety_critical_override (0.5 : ℚ) (by norm_num)
    (by norm_num)).1 (by norm_num)).1

/-- C3 counterexample: the claim binds the validating entry point to the
source function `getConfidenceMetadata`, but that function performs no
input validation: at the out-of-range score -0.1 it returns the
Low Confidence record normally instead of raising InvalidScoreError. -/
theorem getConfidenceMetadata_no_error_counterexample :
    getConfidenceMetadata (-0.1 : ℚ) "LOW" false =
      { score := (-0.1 : ℚ), band := "LOW", color := "error",
        icon := "Error", label := "Low Confidence",
        description := "Requires human review" } := by
  have h1 : ¬ (0.85 : ℚ) ≤ (-0.1 : ℚ) := by norm_num
  have h2 : ¬ (0.6 : ℚ) ≤ (-0.1 : ℚ) := by norm_num
  simp [getConfidenceMetadata, h1, h2]

/-- C3 amended: the spec-level `classify` raises InvalidScoreError exactly
for scores outside the closed interval [0, 1] and succeeds on 0 and 1;
the source helper `getConfidenceMetadata` itself never raises. -/
theorem classify_invalid_score (s : ℚ) (sc : Bool) :
    (classify s sc = Except.error ClassifyError.InvalidScoreError ↔
      (s < 0 ∨ 1 < s)) ∧
    classify (0 : ℚ) sc ≠ Except.error ClassifyError.InvalidScoreError ∧
    classify (1 : ℚ) sc ≠ Except.error ClassifyError.InvalidScoreError := by
  refine ⟨?_, ?_, ?_⟩
  · by_cases h : s < 0 ∨ 1 < s
    · simp [classify, h]
    · simp [classify, h]
  · have h : ¬ ((0 : ℚ) < 0 ∨ 1 < (0 : ℚ)) := by norm_num
    simp [classify, h]
  · have h : ¬ ((1 : ℚ) < 0 ∨ 1 < (1 : ℚ)) := by norm_num
    simp [classify, h]

/-- C4 counterexample: at score 0.2 with isSafetyCritical = true the
safety-critical override wins over the manual-validation rule: the path
is URGENT_REVIEW with the LOW-band TTL 3600, not MANUAL_VALIDATION with
TTL 0, even though the score is below 0.30. -/
theorem classify_ttl_counterexample :
    classify (0.2 : ℚ) true =
      Except.ok ⟨Band.LOW, 3600, RoutingPath.URGENT_REVIEW⟩ := by
  have h1 : ¬ ((0.2 : ℚ) < 0 ∨ 1 < (0.2 : ℚ)) := by norm_num
  have h2 : (0.2 : ℚ) < (0.8 : ℚ) := by norm_num
  have h3 : ¬ (0.85 : ℚ) ≤ (0.2 : ℚ) := by norm_num
  have h4 : ¬ (0.6 : ℚ) ≤ (0.2 : ℚ) := by norm_num
  simp [classify, routingPathOf, bandOf, ttlForBand, h1, h2, h3, h4]

/-- C4 amended: for every in-range score the classification succeeds, its
band is the threshold band, every path other than MANUAL_VALIDATION gets
the band-derived TTL (86400 / 43200 / 3600), TTL 0 holds exactly on the
MANUAL_VALIDATION path, and for non-safety-critical documents the
MANUAL_VALIDATION path is taken exactly when the score is below 0.30
(safety-critical documents below 0.30 take the URGENT_REVIEW override
with the band TTL instead). -/
theorem classify_ttl_policy (s : ℚ) (sc : Bool) (h0 : 0 ≤ s)
    (h1 : s ≤ 1) :
    classify s sc ≠ Except.error ClassifyError.InvalidScoreError ∧
    ∀ c, classify s sc = Except.ok c →
      c.band = bandOf s ∧
      (c.routingPath ≠ RoutingPath.MANUAL_VALIDATION →
        c.cacheTTLSeconds = ttlForBand c.band) ∧
      (c.cacheTTLSeconds = 0 ↔
        c.routingPath = RoutingPath.MANUAL_VALIDATION) ∧
      (sc = false →
        (c.routingPath = RoutingPath.MANUAL_VALIDATION ↔ s < (0.3 : ℚ))) := by
  have hrange : ¬ (s < 0 ∨ 1 < s) := by
    push_neg
    exact ⟨h0, h1⟩
  constructor
  · simp [classify, hrange]
  · intro c hc
    rw [classify, if_neg hrange] at hc
    have hc2 : c = ⟨bandOf s,
        if routingPathOf s sc = RoutingPath.MANUAL_VALIDATION then 0
        else ttlForBand (bandOf s), routingPathOf s sc⟩ :=
      (Except.ok.injEq _ _).mp hc.symm
    subst hc2
    refine ⟨rfl, ?_, ?_, ?_⟩
    · intro hp
      simp [hp]
    · by_cases hp : routingPathOf s sc = RoutingPath.MANUAL_VALIDATION
      · simp [hp]
      · simp only [if_neg hp]
        constructor
        · intro h0'
          cases hb : bandOf s <;> rw [hb] at h0' <;> simp [ttlForBand] at h0'
        · intro h
          exact absurd h hp
    · intro hsc
      subst hsc
      rw [routingPathOf]
      simp only [Bool.false_eq_true, false_and, if_false]
      by_cases hA : (0.85 : ℚ) ≤ s
      · simp [hA]
        exact le_trans (by norm_num) hA
      · by_cases hM : (0.6 : ℚ) ≤ s
        · simp [hA, hM]
          exact le_trans (by norm_num) hM
        · by_cases hE : (0.3 : ℚ) ≤ s
          · simp [hA, hM, hE]
          · simp [hA, hM, hE, not_le.mp hE]

/-- C4 witness: the non-safety-critical score 0.1 is in range and its
classification does not fail. -/
theorem classify_ttl_policy_witness :
    (0 : ℚ) ≤ (0.1 : ℚ) ∧ (0.1 : ℚ) ≤ 1 ∧
    classify (0.1 : ℚ) false ≠
      Except.error ClassifyError.InvalidScoreError := by
  refine ⟨by norm_num, by norm_num, ?_⟩
  exact (classify_ttl_policy (0.1 : ℚ) false (by norm_num) (by norm_num)).1

/-- C5: `currentTrend` reports "insufficient_data" below 10 samples;
otherwise it reports "improving" exactly when the newer-half mean
exceeds the older-half mean by more than 0.03, "declining" exactly when
it falls short by more than 0.03, and "stable" otherwise; its
`recentAverage` is always the mean of the newer half only. -/
theorem currentTrend_spec (t : TrendTracker) :
    (t.samples.length < 10 →
      t.currentTrend.trend = "insufficient_data") ∧
    (10 ≤ t.samples.length →
      ((t.currentTrend.trend = "improving" ↔
         (0.03 : ℚ) <
           listMean (t.samples.drop (t.samples.length / 2)) -
             listMean (t.samples.take (t.samples.length / 2))) ∧
       (t.currentTrend.trend = "declining" ↔
         listMean (t.samples.drop (t.samples.length / 2)) -
             listMean (t.samples.take (t.samples.length / 2)) <
           -(0.03 : ℚ)) ∧
       (t.currentTrend.trend = "stable" ↔
         (¬ (0.03 : ℚ) <
            listMean (t.samples.drop (t.samples.length / 2)) -
              listMean (t.samples.take (t.samples.length / 2)) ∧
          ¬ listMean (t.samples.drop (t.samples.length / 2)) -
              listMean (t.samples.take (t.samples.length / 2)) <
            -(0.03 : ℚ))))) ∧
    t.currentTrend.recentAverage =
      listMean (t.samples.drop (t.samples.length / 2)) := by
  unfold TrendTracker.currentTrend
  by_cases hn : t.samples.length < 10
  · simp [hn]
  · have hge : 10 ≤ t.samples.length := not_lt.mp hn
    by_cases hi : (0.03 : ℚ) <
        listMean (t.samples.drop (t.samples.length / 2)) -
          listMean (t.samples.take (t.samples.length / 2))
    · simp [hn, hi]
      intro _
      linarith
    · by_cases hd : listMean (t.samples.drop (t.samples.length / 2)) -
          listMean (t.samples.take (t.samples.length / 2)) < -(0.03 : ℚ)
      · simp [hn, hi, hd]
      · simp [hn, hi, hd]

/-- C5 witness: ten samples, five at 0.5 then five at 0.9, classify as
improving (mean difference 0.4 exceeds the 0.03 noise band). -/
theorem currentTrend_spec_witness :
    (TrendTracker.mk 100
        [0.5, 0.5, 0.5, 0.5, 0.5, 0.9, 0.9, 0.9, 0.9, 0.9]).currentTrend.trend =
      "improving" := by
  have h := currentTrend_spec
    (TrendTracker.mk 100 [0.5, 0.5, 0.5, 0.5, 0.5, 0.9, 0.9, 0.9, 0.9, 0.9])
  refine ((h.2.1 (by simp)).1).mpr ?_
  norm_num [listMean]

/-- Filtering after a map that preserves the predicate preserves the
filter length. -/
theorem length_filter_map_eq {α : Type} (f : α → α) (p : α → Bool)
    (l : List α) (h : ∀ a, p (f a) = p a) :
    ((l.map f).filter p).length = (l.filter p).length := by
  induction l with
  | nil => rfl
  | cons a l ih =>
    simp only [List.map_cons, List.filter_cons, h a]
    cases hp : p a <;> simp [ih]

/-- `enqueue` preserves the at-most-one-unresolved invariant. -/
theorem enqueue_preserves_atMostOne (q : List ReviewItem) (id : String)
    (score : ℚ) (band : Band) (prio : Priority) (why : String) (now : ℕ)
    (h : atMostOneUnresolved q) :
    atMostOneUnresolved (enqueue q id score band prio why now) := by
  intro id2
  unfold enqueue
  by_cases hq : hasUnresolved q id = true
  · rw [if_pos hq, length_filter_map_eq]
    · exact h id2
    · intro a
      by_cases ha : (a.documentId == id && !a.resolved) = true <;> simp [ha]
  · rw [if_neg hq, List.filter_append]
    simp only [List.length_append]
    by_cases hid : id = id2
    · subst hid
      have hq2 : q.filter (fun i => i.documentId == id && !i.resolved) = [] := by
        rw [List.filter_eq_nil_iff]
        intro a ha hpa
        exact hq (List.any_eq_true.mpr ⟨a, ha, hpa⟩)
      simp [hq2, List.filter_cons]
    · have hb : (id == id2) = false := beq_eq_false_iff_ne.mpr hid
      simp [List.filter_cons, hb]
      exact h id2

/-- `resolve` never increases the number of unresolved items for any
documentId. -/
theorem resolveReview_filter_le (q : List ReviewItem) (id r id2 : String) :
    ((resolveReview q id r).2.filter
        fun i => i.documentId == id2 && !i.resolved).length ≤
      (q.filter fun i => i.documentId == id2 && !i.resolved).length := by
  induction q with
  | nil => simp [resolveReview]
  | cons i rest ih =>
    by_cases hi : (i.documentId == id && !i.resolved) = true
    · rw [resolveReview, if_pos hi]
      simp only [List.filter_cons]
      cases hp : (i.documentId == id2 && !i.resolved) <;> simp
    · rw [resolveReview, if_neg hi]
      simp only [List.filter_cons]
      cases hp : (i.documentId == id2 && !i.resolved) <;> simp [ih]

/-- Every reachable queue satisfies the invariant. -/
theorem reachable_atMostOne (q : List ReviewItem) (hq : ReachableQueue q) :
    atMostOneUnresolved q := by
  induction hq with
  | empty =>
    intro id
    simp
  | enqueue q id score band prio why now _ ih =>
    exact enqueue_preserves_atMostOne q id score band prio why now ih
  | resolve q id r _ ih =>
    intro id2
    exact le_trans (resolveReview_filter_le q id r id2) (ih id2)

/-- The flag returned by `resolve` is exactly `hasUnresolved`. -/
theorem resolveReview_fst (q : List ReviewItem) (id r : String) :
    (resolveReview q id r).1 = hasUnresolved q id := by
  induction q with
  | nil => rfl
  | cons i rest ih =>
    by_cases hi : (i.documentId == id && !i.resolved) = true
    · simp [resolveReview, hasUnresolved, hi]
    · simp only [resolveReview, hasUnresolved, List.any_cons, hi] at ih ⊢
      simp [ih]

/-- After `resolve`, no unresolved item for the documentId remains
(given the invariant). -/
theorem resolveReview_clears (q : List ReviewItem) (id r : String)
    (h : (q.filter fun i => i.documentId == id && !i.resolved).length ≤ 1) :
    hasUnresolved (resolveReview q id r).2 id = false := by
  induction q with
  | nil => rfl
  | cons i rest ih =>
    by_cases hi : (i.documentId == id && !i.resolved) = true
    · have hrest : rest.filter (fun i => i.documentId == id && !i.resolved) = [] := by
        rw [List.filter_cons, if_pos hi, List.length_cons] at h
        have h0 : (rest.filter fun i =>
            i.documentId == id && !i.resolved).length = 0 := by omega
        exact List.length_eq_zero.mp h0
      have hany : rest.any (fun i => i.documentId == id && !i.resolved) = false := by
        rw [List.any_eq_false]
        intro a ha
        have := List.filter_eq_nil_iff.mp hrest a ha
        simpa using this
      rw [resolveReview, if_pos hi]
      simp [hasUnresolved, hany]
    · rw [List.filter_cons, if_neg hi] at h
      have hrec := ih h
      rw [resolveReview, if_neg hi]
      simp only [hasUnresolved, List.any_cons, hi] at hrec ⊢
      simp [hi, hrec]

/-- C6: at every reachable queue state at most one unresolved item per
documentId exists; enqueueing a documentId that already has an
unresolved item changes no item count, no documentId, no
createdAtTimestamp and no resolution state (it only replaces priority,
reason and score in place). -/
theorem reviewQueue_upsert_invariant (q : List ReviewItem)
    (hq : ReachableQueue q) :
    atMostOneUnresolved q ∧
    ∀ id score band prio why now, hasUnresolved q id = true →
      (enqueue q id score band prio why now).length = q.length ∧
      (enqueue q id score band prio why now).map
          (fun i => (i.documentId, i.createdAtTimestamp, i.resolved)) =
        q.map (fun i => (i.documentId, i.createdAtTimestamp, i.resolved)) := by
  refine ⟨reachable_atMostOne q hq, ?_⟩
  intro id score band prio why now h
  constructor
  · simp [enqueue, h]
  · rw [enqueue, if_pos h, List.map_map]
    apply List.map_congr_left
    intro a _
    simp only [Function.comp_apply]
    by_cases ha : (a.documentId == id && !a.resolved) = true
    · rw [if_pos ha]
    · rw [if_neg ha]

/-- C6 witness: re-enqueueing document A at a higher priority keeps the
queue at one item. -/
theorem reviewQueue_upsert_invariant_witness :
    (enqueue (enqueue [] "A" (0.5 : ℚ) Band.LOW Priority.MEDIUM "low" 5)
        "A" (0.2 : ℚ) Band.LOW Priority.URGENT "worse" 9).length =
      (enqueue [] "A" (0.5 : ℚ) Band.LOW Priority.MEDIUM "low" 5).length := by
  have h := reviewQueue_upsert_invariant
    (enqueue [] "A" (0.5 : ℚ) Band.LOW Priority.MEDIUM "low" 5)
    (ReachableQueue.enqueue [] "A" (0.5 : ℚ) Band.LOW Priority.MEDIUM
      "low" 5 ReachableQueue.empty)
  exact (h.2 "A" (0.2 : ℚ) Band.LOW Priority.URGENT "worse" 9 (by decide)).1

/-- C7: on every reachable queue, `resolve` returns true exactly when an
unresolved item for the documentId exists (false both for unknown and
for already-resolved documentIds), it leaves no unresolved item for
that documentId behind, and a second `resolve` on the same documentId
returns false (idempotent resolution). -/
theorem resolveReview_spec (q : List ReviewItem) (id r r2 : String)
    (hq : ReachableQueue q) :
    ((resolveReview q id r).1 = true ↔
      ∃ i ∈ q, i.documentId = id ∧ i.resolved = false) ∧
    hasUnresolved (resolveReview q id r).2 id = false ∧
    (resolveReview (resolveReview q id r).2 id r2).1 = false := by
  have hinv := reachable_atMostOne q hq
  have hclear := resolveReview_clears q id r (hinv id)
  refine ⟨?_, hclear, ?_⟩
  · rw [resolveReview_fst]
    unfold hasUnresolved
    rw [List.any_eq_true]
    constructor
    · rintro ⟨i, hi, hp⟩
      simp only [Bool.and_eq_true, Bool.not_eq_true', beq_iff_eq] at hp
      exact ⟨i, hi, hp.1, hp.2⟩
    · rintro ⟨i, hi, h1, h2⟩
      refine ⟨i, hi, ?_⟩
      simp [h1, h2]
  · rw [resolveReview_fst]
    exact hclear

/-- C7 witness: resolving document A succeeds once and the second
resolve returns false. -/
theorem resolveReview_spec_witness :
    (resolveReview (enqueue [] "A" (0.5 : ℚ) Band.LOW Priority.MEDIUM
        "low" 5) "A" "done").1 = true ∧
    (resolveReview (resolveReview (enqueue [] "A" (0.5 : ℚ) Band.LOW
        Priority.MEDIUM "low" 5) "A" "done").2 "A" "again").1 = false := by
  have h := resolveReview_spec
    (enqueue [] "A" (0.5 : ℚ) Band.LOW Priority.MEDIUM "low" 5)
    "A" "done" "again"
    (ReachableQueue.enqueue [] "A" (0.5 : ℚ) Band.LOW Priority.MEDIUM
      "low" 5 ReachableQueue.empty)
  refine ⟨?_, h.2.2⟩
  refine h.1.mpr ?_
  refine ⟨⟨"A", (0.5 : ℚ), Band.LOW, Priority.MEDIUM, "low", 5, false, none⟩,
    ?_, rfl, rfl⟩
  rw [show enqueue [] "A" (0.5 : ℚ) Band.LOW Priority.MEDIUM "low" 5 =
    [⟨"A", (0.5 : ℚ), Band.LOW, Priority.MEDIUM, "low", 5, false, none⟩]
    from rfl]
  exact List.mem_singleton.mpr rfl

/-- A `find?` over an append skips a prefix on which the predicate is
everywhere false. -/
theorem find?_append_of_none {α : Type} (l₁ l₂ : List α) (p : α → Bool)
    (h : ∀ x ∈ l₁, p x = false) :
    (l₁ ++ l₂).find? p = l₂.find? p := by
  induction l₁ with
  | nil => rfl
  | cons a l ih =>
    rw [List.cons_append, List.find?_cons_of_neg]
    · exact ih fun x hx => h x (by simp [hx])
    · simp [h a (by simp)]

/-- C8: at every cache state — hence after every sequence of put, get
and sweep operations — `stats` partitions the entries:
activeItems + expiredItems = totalItems; a put with ttlSeconds = 0 is
counted in totalItems, counts as expired immediately, and `get` on its
documentId returns absent. -/
theorem cacheStats_invariant (c : List CacheEntry) (id : String)
    (score : ℚ) (now : ℕ) :
    (∀ (d : List CacheEntry) (t : ℕ),
      (cacheStats d t).activeItems + (cacheStats d t).expiredItems =
        (cacheStats d t).totalItems) ∧
    (cacheStats (cachePut c id score now 0) now).totalItems =
      (c.filter fun e => !(e.documentId == id)).length + 1 ∧
    (cacheStats (cachePut c id score now 0) now).expiredItems =
      ((c.filter fun e => !(e.documentId == id)).filter
        fun e => expired now e).length + 1 ∧
    (cacheGet (cachePut c id score now 0) id now).1 = none := by
  refine ⟨?_, ?_, ?_, ?_⟩
  · intro d t
    induction d with
    | nil => rfl
    | cons e d ih =>
      simp only [cacheStats, List.filter_cons] at ih ⊢
      cases he : expired t e <;> simp [he] <;> omega
  · simp [cacheStats, cachePut]
  · simp only [cacheStats, cachePut, List.filter_append]
    simp [expired]
  · have hfind : (cachePut c id score now 0).find?
        (fun e => e.documentId == id) =
        some ⟨id, score, now, 0, now + 0⟩ := by
      rw [cachePut, find?_append_of_none]
      · rw [List.find?_cons_of_pos]
        simp
      · intro x hx
        have := List.of_mem_filter hx
        simpa using this
    rw [cacheGet, hfind]
    simp [expired]

end PipesHub
